import Mathlib

/-!
Shallow embedding of `pkg/cli/build/build.go` from jdob/edge-image-builder.

The file `build.go` implements the pipeline controller `Run` together with
its helpers `imageConfigDirExists`, `parseImageDefinition`,
`parseArtifactSources` and `buildContext`.  External collaborators
(the `os` filesystem calls, `eib.SetupBuildDirectory`,
`eib.SetupCombustionDirectory`, `image.ParseDefinition`, `yaml.Unmarshal`,
`validateImageDefinition`, `eib.Run`, and the supported-schema-version list
from `pkg/version`) live outside `build.go`; they are modelled as oracle
functions collected in an `Env` record.  `Run` is embedded as a function
from the environment to a trace of observable events (audit messages,
logger configuration, external calls, fatal log entries) plus a terminal
outcome.  Go's `os.Exit` (also reached through `zap.S().Fatalf`) terminates
the process at once — in particular deferred functions do not run — which
the embedding reflects by ending the trace at that point with outcome
`exited 1`.
-/

deriving instance DecidableEq for Except

namespace EIB

/-- External type: the parsed image definition (`image.Definition`).
Its contents are never inspected by `build.go`, so it is modelled as an
abstract token. -/
structure ImageDefinition where
  tag : Nat
deriving DecidableEq

/-- External type: the decoded artifact sources (`image.ArtifactSources`),
likewise opaque to `build.go`. -/
structure ArtifactSources where
  tag : Nat
deriving DecidableEq

/-- The build context assembled by `buildContext` (`image.Context`), with
exactly the six fields `build.go` populates. -/
structure Context where
  imageConfigDir : String
  buildDir : String
  combustionDir : String
  artefactsDir : String
  imageDefinition : ImageDefinition
  artifactSources : ArtifactSources
deriving DecidableEq

/-- The structured error `cmd.Error` as used by `build.go`: a user-facing
message and an operator-facing log message.  In Go an omitted field holds
the zero value `""`, which encodes absence of that message. -/
structure CmdError where
  userMessage : String
  logMessage : String
deriving DecidableEq

/-- Model of Go `filepath.Join` for two components (path cleaning of `.`,
`..` and duplicate separators is irrelevant to the claims and omitted). -/
def filepathJoin (a b : String) : String :=
  if a = "" then b else if b = "" then a else a ++ "/" ++ b

/-- Model of Go `strings.Join`. -/
def stringsJoin : List String → String → String
  | [], _ => ""
  | [s], _ => s
  | s :: rest, sep => s ++ sep ++ stringsJoin rest sep

/-- Constant `buildLogFilename` from `build.go`. -/
def buildLogFilename : String := "eib-build.log"

/-- Constant `checkBuildLogMessage` from `build.go`. -/
def checkBuildLogMessage : String :=
  "Please check the eib-build.log file under the build directory for more information."

/-- Constant `defaultBuildDir` from `Run` in `build.go`. -/
def defaultBuildDir : String := "_build"

/-- Result of `os.Stat` as observed by `imageConfigDirExists`: success,
`fs.ErrNotExist`, or some other error carrying its text. -/
inductive StatResult where
  | ok
  | notExist
  | otherErr (msg : String)
deriving DecidableEq

/-- Result of `os.ReadFile`: file contents, `fs.ErrNotExist`, or some other
error carrying its text. -/
inductive ReadResult where
  | ok (data : String)
  | notExist
  | otherErr (msg : String)
deriving DecidableEq

/-- Result of `image.ParseDefinition`: a parsed definition, the sentinel
`image.ErrorInvalidSchemaVersion`, or some other parse error. -/
inductive ParseResult where
  | ok (d : ImageDefinition)
  | invalidSchemaVersion
  | otherErr (msg : String)
deriving DecidableEq

/-- The invalid-schema-version message built in `parseImageDefinition`:
`fmt.Sprintf` of the fixed text with
`strings.Join(version.SupportedSchemaVersions, ", ")`. -/
def invalidSchemaMessage (supportedSchemaVersions : List String) : String :=
  "Invalid schema version specified. This version of Edge Image Builder supports the following schema versions: "
    ++ stringsJoin supportedSchemaVersions ", "

/-- Embedding of `imageConfigDirExists` from `build.go`.  `stat` is the
`os.Stat` oracle.  Returns `none` exactly when the Go function returns
`nil`. -/
def imageConfigDirExists (stat : String → StatResult) (configDir : String) :
    Option CmdError :=
  match stat configDir with
  | .ok => none
  | .notExist =>
      some { userMessage := "The specified image configuration directory '"
                ++ configDir ++ "' could not be found.",
             logMessage := "" }
  | .otherErr e =>
      some { userMessage := "Unable to check the filesystem for the image configuration directory '"
                ++ configDir ++ "'.",
             logMessage := "Reading image config dir failed: " ++ e }

/-- Embedding of `parseImageDefinition` from `build.go`.  `readFile` is the
`os.ReadFile` oracle, `parseDefinition` the `image.ParseDefinition` oracle,
and `supportedSchemaVersions` the list `version.SupportedSchemaVersions`. -/
def parseImageDefinition (readFile : String → ReadResult)
    (parseDefinition : String → ParseResult)
    (supportedSchemaVersions : List String)
    (configDir definitionFile : String) : Except CmdError ImageDefinition :=
  let definitionFilePath := filepathJoin configDir definitionFile
  match readFile definitionFilePath with
  | .notExist =>
      .error { userMessage := "The specified definition file '"
                  ++ definitionFilePath ++ "' could not be found.",
               logMessage := "" }
  | .otherErr e =>
      .error { userMessage := "The specified definition file '"
                  ++ definitionFilePath ++ "' could not be read.",
               logMessage := "Reading definition file failed: " ++ e }
  | .ok configData =>
      match parseDefinition configData with
      | .invalidSchemaVersion =>
          .error { userMessage := invalidSchemaMessage supportedSchemaVersions,
                   logMessage := invalidSchemaMessage supportedSchemaVersions }
      | .otherErr e =>
          .error { userMessage := "The image definition file '"
                      ++ definitionFilePath ++ "' could not be parsed.",
                   logMessage := "Parsing definition file failed: " ++ e }
      | .ok imageDefinition => .ok imageDefinition

/-- Embedding of `parseArtifactSources` from `build.go`.  It reads the fixed
file name `artifacts.yaml` (relative path, hence the process's working
directory) and decodes it with the `yaml.Unmarshal` oracle. -/
def parseArtifactSources (readFile : String → ReadResult)
    (yamlUnmarshal : String → Except String ArtifactSources) :
    Except String ArtifactSources :=
  let artifactsConfigFile := "artifacts.yaml"
  match readFile artifactsConfigFile with
  | .notExist =>
      .error ("artifact sources file '" ++ artifactsConfigFile ++ "' does not exist")
  | .otherErr e => .error ("reading artifact sources file: " ++ e)
  | .ok b =>
      match yamlUnmarshal b with
      | .error e => .error ("decoding artifacts sources: " ++ e)
      | .ok sources => .ok sources

/-- Embedding of `buildContext` from `build.go`: assembles the image build
context from its six arguments. -/
def buildContext (buildDir combustionDir artefactsDir configDir : String)
    (imageDefinition : ImageDefinition) (artifactSources : ArtifactSources) :
    Context :=
  { imageConfigDir := configDir,
    buildDir := buildDir,
    combustionDir := combustionDir,
    artefactsDir := artefactsDir,
    imageDefinition := imageDefinition,
    artifactSources := artifactSources }

/-- The ten stages of the pipeline, in the order `Run` performs them. -/
inductive Stage where
  | resolveRootDir
  | createBuildDir
  | configureLogging
  | checkConfigDirExists
  | loadDefinition
  | createCombustionDirs
  | loadArtifactCatalog
  | assembleContext
  | validate
  | execute
deriving DecidableEq

/-- Observable events of one run of the controller.  A `stage` event marks
the start of the corresponding step of `Run`; the remaining constructors
record side-effecting calls: `log.Audit`/`log.Auditf` output,
`os.MkdirAll`, `eib.SetupBuildDirectory`, `log.ConfigureGlobalLogger`,
`cmd.LogError` (audit of the error plus the hint given as second
argument), `eib.SetupCombustionDirectory`, `zap.S().Fatalf` operator-log
output, installation of the deferred recover handler, the `eib.Run` call,
and execution of that deferred handler with the recovered value
(`none` when no panic was in flight). -/
inductive Event where
  | stage (s : Stage)
  | audit (msg : String)
  | mkdirAllCall (path : String)
  | setupBuildDirectoryCall (rootDir : String)
  | configureGlobalLogger (path : String)
  | logError (e : CmdError) (hint : String)
  | setupCombustionCall (buildDir : String)
  | fatalLog (msg : String)
  | deferInstalled
  | eibRunCall (ctx : Context) (rootDir : String)
  | deferRan (recovered : Option String)
deriving DecidableEq

/-- Terminal outcome of `Run`: a normal `nil` return, a normal error
return, or immediate process termination through `os.Exit` (the
`zap.S().Fatalf` calls also exit with status 1). -/
inductive Outcome where
  | returnedNil
  | returnedErr (msg : String)
  | exited (code : Nat)
deriving DecidableEq

/-- Result of one run: the event trace and the terminal outcome. -/
structure RunResult where
  trace : List Event
  outcome : Outcome
deriving DecidableEq

/-- Outcome of the `eib.Run` build executor: normal return `nil`, an error
return, or a panic carrying the panic value's text. -/
inductive ExecOutcome where
  | ok
  | err (msg : String)
  | panics (msg : String)
deriving DecidableEq

/-- The command-line arguments `cmd.BuildArgs` that `Run` reads. -/
structure BuildArgs where
  rootBuildDir : String
  configDir : String
  definitionFile : String
deriving DecidableEq

/-- Environment of one run: the arguments plus oracles for every external
collaborator of `build.go`.  `mkdirAll` returns `some errText` on failure
and `none` on success; the `Except`-valued oracles mirror Go's
`(value, error)` returns. -/
structure Env where
  args : BuildArgs
  mkdirAll : String → Option String
  setupBuildDirectory : String → Except String String
  stat : String → StatResult
  readFile : String → ReadResult
  parseDefinition : String → ParseResult
  supportedSchemaVersions : List String
  setupCombustionDirectory : String → Except String (String × String)
  yamlUnmarshal : String → Except String ArtifactSources
  validateImageDefinition : Context → Option CmdError
  eibRun : Context → String → ExecOutcome

/-- Continuation of `Run` from `build.go` after the root build directory
has been resolved; `t` is the trace accumulated so far and `rootBuildDir`
the resolved root.  Each stage emits its `Stage` marker when control
reaches it; failures reproduce the audit / `cmd.LogError` /
`zap.S().Fatalf` reporting and the corresponding termination
(`return err`, or `os.Exit(1)` — on which Go runs no deferred functions,
so the `fatalLog` paths end the trace immediately).  The deferred recover
handler is installed after validation, directly before `eib.Run`, and runs
when `eib.Run` returns normally (recovering `none`) or panics (recovering
the panic value). -/
def runAfterRoot (env : Env) (t : List Event) (rootBuildDir : String) : RunResult :=
  let args := env.args
  -- stage 2: create the build directory
  let t := t ++ [.stage .createBuildDir, .setupBuildDirectoryCall rootBuildDir]
  match env.setupBuildDirectory rootBuildDir with
  | .error e =>
      ⟨t ++ [.audit "The build directory could not be set up."], .returnedErr e⟩
  | .ok buildDir =>
  -- stage 3: configure the global logger inside the fresh build directory
  let t := t ++ [.stage .configureLogging,
                 .configureGlobalLogger (filepathJoin buildDir buildLogFilename)]
  -- stage 4: check that the image configuration directory exists
  let t := t ++ [.stage .checkConfigDirExists]
  match imageConfigDirExists env.stat args.configDir with
  | some cmdErr => ⟨t ++ [.logError cmdErr checkBuildLogMessage], .exited 1⟩
  | none =>
  -- stage 5: load and parse the image definition
  let t := t ++ [.stage .loadDefinition]
  match parseImageDefinition env.readFile env.parseDefinition
      env.supportedSchemaVersions args.configDir args.definitionFile with
  | .error cmdErr => ⟨t ++ [.logError cmdErr checkBuildLogMessage], .exited 1⟩
  | .ok imageDefinition =>
  -- stage 6: create the combustion working directories
  let t := t ++ [.stage .createCombustionDirs, .setupCombustionCall buildDir]
  match env.setupCombustionDirectory buildDir with
  | .error e =>
      ⟨t ++ [.audit ("Setting up the combustion directory failed. " ++ checkBuildLogMessage),
             .fatalLog ("Failed to create combustion directories: " ++ e)],
       .exited 1⟩
  | .ok (combustionDir, artefactsDir) =>
  -- stage 7: load the artifact sources catalog
  let t := t ++ [.stage .loadArtifactCatalog]
  match parseArtifactSources env.readFile env.yamlUnmarshal with
  | .error e =>
      ⟨t ++ [.audit ("Loading artifact sources metadata failed. " ++ checkBuildLogMessage),
             .fatalLog ("Parsing artifact sources failed: " ++ e)],
       .exited 1⟩
  | .ok artifactSources =>
  -- stage 8: assemble the build context
  let ctx := buildContext buildDir combustionDir artefactsDir args.configDir
      imageDefinition artifactSources
  let t := t ++ [.stage .assembleContext]
  -- stage 9: validate the image definition
  let t := t ++ [.stage .validate]
  match env.validateImageDefinition ctx with
  | some cmdErr => ⟨t ++ [.logError cmdErr checkBuildLogMessage], .exited 1⟩
  | none =>
  -- stage 10: install the recover handler and invoke the build executor
  let t := t ++ [.deferInstalled, .stage .execute, .eibRunCall ctx rootBuildDir]
  match env.eibRun ctx rootBuildDir with
  | .ok => ⟨t ++ [.deferRan none], .returnedNil⟩
  | .err e =>
      ⟨t ++ [.audit checkBuildLogMessage,
             .fatalLog ("An error occurred building the image: " ++ e)],
       .exited 1⟩
  | .panics r =>
      ⟨t ++ [.deferRan (some r),
             .audit ("Build failed unexpectedly. " ++ checkBuildLogMessage),
             .fatalLog ("Unexpected error occurred: " ++ r)],
       .exited 1⟩

/-- Embedding of `Run` from `build.go`: resolve the root build directory
(stage 1) and continue with `runAfterRoot`.  When `args.RootBuildDir` is
empty the default root is derived under the configuration directory and
created with `os.MkdirAll`; otherwise the configured value is used
verbatim with no directory creation. -/
def run (env : Env) : RunResult :=
  let args := env.args
  if args.rootBuildDir == "" then
    let rootBuildDir := filepathJoin args.configDir defaultBuildDir
    match env.mkdirAll rootBuildDir with
    | some e =>
        ⟨[.stage .resolveRootDir, .mkdirAllCall rootBuildDir,
          .audit ("The root build directory could not be set up under the configuration directory '"
                    ++ args.configDir ++ "'.")],
         .returnedErr e⟩
    | none =>
        runAfterRoot env [.stage .resolveRootDir, .mkdirAllCall rootBuildDir] rootBuildDir
  else
    runAfterRoot env [.stage .resolveRootDir] args.rootBuildDir

/-- The fixed stage order of the pipeline controller. -/
def allStages : List Stage :=
  [.resolveRootDir, .createBuildDir, .configureLogging, .checkConfigDirExists,
   .loadDefinition, .createCombustionDirs, .loadArtifactCatalog,
   .assembleContext, .validate, .execute]

/-- Projects a `stage` event to its stage. -/
def stageOfEvent : Event → Option Stage
  | .stage s => some s
  | _ => none

/-- The sequence of stage markers of a trace, in order. -/
def stagesOf (t : List Event) : List Stage :=
  t.filterMap stageOfEvent

/-- Recognises the `eib.Run` invocation event. -/
def isEibRunCall : Event → Bool
  | .eibRunCall _ _ => true
  | _ => false

/-- Whether the build executor was invoked during a trace. -/
def eibRunInvoked (t : List Event) : Bool :=
  t.any isEibRunCall

/-- Projects a logger-configuration event to its log-file path. -/
def loggerPathOfEvent : Event → Option String
  | .configureGlobalLogger p => some p
  | _ => none

/-- The log-file paths of all `ConfigureGlobalLogger` calls in a trace. -/
def loggerConfigCalls (t : List Event) : List String :=
  t.filterMap loggerPathOfEvent

/-- Projects an `os.MkdirAll` call event to its path argument. -/
def mkdirPathOfEvent : Event → Option String
  | .mkdirAllCall p => some p
  | _ => none

/-- The paths of all `os.MkdirAll` calls in a trace. -/
def mkdirCalls (t : List Event) : List String :=
  t.filterMap mkdirPathOfEvent

/-- Recognises a `zap.S().Fatalf` operator-log event. -/
def isFatalLogEvent : Event → Bool
  | .fatalLog _ => true
  | _ => false

/-- Recognises execution of the deferred recover handler. -/
def isDeferRanEvent : Event → Bool
  | .deferRan _ => true
  | _ => false

/-- Whether `pat` occurs as a contiguous sublist of `l`. -/
def listIsInfixOf {α : Type} [BEq α] (pat : List α) : List α → Bool
  | [] => pat.isEmpty
  | a :: rest => pat.isPrefixOf (a :: rest) || listIsInfixOf pat rest

/-- Substring test on strings, via infix search on the character lists. -/
def strContainsSubstr (s pat : String) : Bool :=
  listIsInfixOf pat.toList s.toList

/-- Whether a reporting event points the user at the build log file: an
audit message containing `checkBuildLogMessage`, or a `cmd.LogError` call
whose hint argument is `checkBuildLogMessage`. -/
def eventCarriesPointer : Event → Bool
  | .audit m => strContainsSubstr m checkBuildLogMessage
  | .logError _ hint => hint == checkBuildLogMessage
  | _ => false

/-- A concrete image definition used by witnesses. -/
def defnA : ImageDefinition := ⟨0⟩

/-- Concrete artifact sources used by witnesses. -/
def sourcesA : ArtifactSources := ⟨0⟩

/-- A concrete environment in which every stage succeeds. -/
def envOk : Env :=
  { args := { rootBuildDir := "root", configDir := "cfg", definitionFile := "def.yaml" },
    mkdirAll := fun _ => none,
    setupBuildDirectory := fun rootDir => .ok (rootDir ++ "/b1"),
    stat := fun _ => .ok,
    readFile := fun p => if p == "artifacts.yaml" then .ok "arts" else .ok "defdata",
    parseDefinition := fun _ => .ok defnA,
    supportedSchemaVersions := ["1.0", "1.1"],
    setupCombustionDirectory := fun buildDir =>
      .ok (buildDir ++ "/combustion", buildDir ++ "/artefacts"),
    yamlUnmarshal := fun _ => .ok sourcesA,
    validateImageDefinition := fun _ => none,
    eibRun := fun _ _ => .ok }

/-- Environment in which the default root build directory cannot be
created: `RootBuildDir` is empty and `os.MkdirAll` fails. -/
def envMkdirFail : Env :=
  { envOk with
    args := { rootBuildDir := "", configDir := "cfg", definitionFile := "def.yaml" },
    mkdirAll := fun _ => some "disk full" }

/-- Environment in which `eib.SetupBuildDirectory` fails. -/
def envBuildDirFail : Env :=
  { envOk with setupBuildDirectory := fun _ => .error "io" }

/-- Environment in which the build executor returns an error. -/
def envEibErr : Env :=
  { envOk with eibRun := fun _ _ => .err "boom" }

/-- Environment in which the build executor panics. -/
def envEibPanic : Env :=
  { envOk with eibRun := fun _ _ => .panics "nil deref" }

/-- Environment in which `eib.SetupCombustionDirectory` fails. -/
def envCombustionFail : Env :=
  { envOk with setupCombustionDirectory := fun _ => .error "mkdir denied" }

/-- Environment in which the image configuration directory is missing. -/
def envNoConfigDir : Env :=
  { envOk with stat := fun _ => .notExist }

/-- How stage 1 of `Run` can resolve the root build directory without
failing: either the configured value was empty, the default root was
derived by joining the configuration directory with `_build` and
`os.MkdirAll` succeeded on it, or the configured value was used verbatim
with no directory creation.  `t0` is the trace stage 1 leaves behind. -/
def RootResolved (env : Env) (t0 : List Event) (root : String) : Prop :=
  (env.args.rootBuildDir = "" ∧
    root = filepathJoin env.args.configDir defaultBuildDir ∧
    env.mkdirAll root = none ∧
    t0 = [.stage .resolveRootDir, .mkdirAllCall root]) ∨
  (env.args.rootBuildDir ≠ "" ∧ root = env.args.rootBuildDir ∧
    t0 = [.stage .resolveRootDir])

/-- Trace segment emitted by stages 2–4 when `eib.SetupBuildDirectory`
returns `bd`: build-directory creation, logger configuration inside `bd`,
and entry into the configuration-directory check. -/
def eventsToConfigCheck (root bd : String) : List Event :=
  [.stage .createBuildDir, .setupBuildDirectoryCall root,
   .stage .configureLogging,
   .configureGlobalLogger (filepathJoin bd buildLogFilename),
   .stage .checkConfigDirExists]

/-- Exhaustive case analysis of one controller run: exactly one of the ten
terminal branches of `run` applies, each recorded with its oracle
conditions, its complete event trace, and its outcome. -/
theorem run_cases (env : Env) :
    (∃ e, env.args.rootBuildDir = "" ∧
      env.mkdirAll (filepathJoin env.args.configDir defaultBuildDir) = some e ∧
      run env =
        ⟨[.stage .resolveRootDir,
          .mkdirAllCall (filepathJoin env.args.configDir defaultBuildDir),
          .audit ("The root build directory could not be set up under the configuration directory '"
                    ++ env.args.configDir ++ "'.")],
         .returnedErr e⟩) ∨
    (∃ t0 root e, RootResolved env t0 root ∧
      env.setupBuildDirectory root = .error e ∧
      run env =
        ⟨t0 ++ [.stage .createBuildDir, .setupBuildDirectoryCall root,
                .audit "The build directory could not be set up."],
         .returnedErr e⟩) ∨
    (∃ t0 root bd cmdErr, RootResolved env t0 root ∧
      env.setupBuildDirectory root = .ok bd ∧
      imageConfigDirExists env.stat env.args.configDir = some cmdErr ∧
      run env =
        ⟨t0 ++ eventsToConfigCheck root bd ++ [.logError cmdErr checkBuildLogMessage],
         .exited 1⟩) ∨
    (∃ t0 root bd cmdErr, RootResolved env t0 root ∧
      env.setupBuildDirectory root = .ok bd ∧
      imageConfigDirExists env.stat env.args.configDir = none ∧
      parseImageDefinition env.readFile env.parseDefinition
        env.supportedSchemaVersions env.args.configDir env.args.definitionFile = .error cmdErr ∧
      run env =
        ⟨t0 ++ eventsToConfigCheck root bd
            ++ [.stage .loadDefinition, .logError cmdErr checkBuildLogMessage],
         .exited 1⟩) ∨
    (∃ t0 root bd d e, RootResolved env t0 root ∧
      env.setupBuildDirectory root = .ok bd ∧
      imageConfigDirExists env.stat env.args.configDir = none ∧
      parseImageDefinition env.readFile env.parseDefinition
        env.supportedSchemaVersions env.args.configDir env.args.definitionFile = .ok d ∧
      env.setupCombustionDirectory bd = .error e ∧
      run env =
        ⟨t0 ++ eventsToConfigCheck root bd
            ++ [.stage .loadDefinition, .stage .createCombustionDirs,
                .setupCombustionCall bd,
                .audit ("Setting up the combustion directory failed. " ++ checkBuildLogMessage),
                .fatalLog ("Failed to create combustion directories: " ++ e)],
         .exited 1⟩) ∨
    (∃ t0 root bd d cd ad e, RootResolved env t0 root ∧
      env.setupBuildDirectory root = .ok bd ∧
      imageConfigDirExists env.stat env.args.configDir = none ∧
      parseImageDefinition env.readFile env.parseDefinition
        env.supportedSchemaVersions env.args.configDir env.args.definitionFile = .ok d ∧
      env.setupCombustionDirectory bd = .ok (cd, ad) ∧
      parseArtifactSources env.readFile env.yamlUnmarshal = .error e ∧
      run env =
        ⟨t0 ++ eventsToConfigCheck root bd
            ++ [.stage .loadDefinition, .stage .createCombustionDirs,
                .setupCombustionCall bd, .stage .loadArtifactCatalog,
                .audit ("Loading artifact sources metadata failed. " ++ checkBuildLogMessage),
                .fatalLog ("Parsing artifact sources failed: " ++ e)],
         .exited 1⟩) ∨
    (∃ t0 root bd d cd ad s cmdErr, RootResolved env t0 root ∧
      env.setupBuildDirectory root = .ok bd ∧
      imageConfigDirExists env.stat env.args.configDir = none ∧
      parseImageDefinition env.readFile env.parseDefinition
        env.supportedSchemaVersions env.args.configDir env.args.definitionFile = .ok d ∧
      env.setupCombustionDirectory bd = .ok (cd, ad) ∧
      parseArtifactSources env.readFile env.yamlUnmarshal = .ok s ∧
      env.validateImageDefinition (buildContext bd cd ad env.args.configDir d s) = some cmdErr ∧
      run env =
        ⟨t0 ++ eventsToConfigCheck root bd
            ++ [.stage .loadDefinition, .stage .createCombustionDirs,
                .setupCombustionCall bd, .stage .loadArtifactCatalog,
                .stage .assembleContext, .stage .validate,
                .logError cmdErr checkBuildLogMessage],
         .exited 1⟩) ∨
    (∃ t0 root bd d cd ad s, RootResolved env t0 root ∧
      env.setupBuildDirectory root = .ok bd ∧
      imageConfigDirExists env.stat env.args.configDir = none ∧
      parseImageDefinition env.readFile env.parseDefinition
        env.supportedSchemaVersions env.args.configDir env.args.definitionFile = .ok d ∧
      env.setupCombustionDirectory bd = .ok (cd, ad) ∧
      parseArtifactSources env.readFile env.yamlUnmarshal = .ok s ∧
      env.validateImageDefinition (buildContext bd cd ad env.args.configDir d s) = none ∧
      env.eibRun (buildContext bd cd ad env.args.configDir d s) root = .ok ∧
      run env =
        ⟨t0 ++ eventsToConfigCheck root bd
            ++ [.stage .loadDefinition, .stage .createCombustionDirs,
                .setupCombustionCall bd, .stage .loadArtifactCatalog,
                .stage .assembleContext, .stage .validate, .deferInstalled,
                .stage .execute,
                .eibRunCall (buildContext bd cd ad env.args.configDir d s) root,
                .deferRan none],
         .returnedNil⟩) ∨
    (∃ t0 root bd d cd ad s e, RootResolved env t0 root ∧
      env.setupBuildDirectory root = .ok bd ∧
      imageConfigDirExists env.stat env.args.configDir = none ∧
      parseImageDefinition env.readFile env.parseDefinition
        env.supportedSchemaVersions env.args.configDir env.args.definitionFile = .ok d ∧
      env.setupCombustionDirectory bd = .ok (cd, ad) ∧
      parseArtifactSources env.readFile env.yamlUnmarshal = .ok s ∧
      env.validateImageDefinition (buildContext bd cd ad env.args.configDir d s) = none ∧
      env.eibRun (buildContext bd cd ad env.args.configDir d s) root = .err e ∧
      run env =
        ⟨t0 ++ eventsToConfigCheck root bd
            ++ [.stage .loadDefinition, .stage .createCombustionDirs,
                .setupCombustionCall bd, .stage .loadArtifactCatalog,
                .stage .assembleContext, .stage .validate, .deferInstalled,
                .stage .execute,
                .eibRunCall (buildContext bd cd ad env.args.configDir d s) root,
                .audit checkBuildLogMessage,
                .fatalLog ("An error occurred building the image: " ++ e)],
         .exited 1⟩) ∨
    (∃ t0 root bd d cd ad s r, RootResolved env t0 root ∧
      env.setupBuildDirectory root = .ok bd ∧
      imageConfigDirExists env.stat env.args.configDir = none ∧
      parseImageDefinition env.readFile env.parseDefinition
        env.supportedSchemaVersions env.args.configDir env.args.definitionFile = .ok d ∧
      env.setupCombustionDirectory bd = .ok (cd, ad) ∧
      parseArtifactSources env.readFile env.yamlUnmarshal = .ok s ∧
      env.validateImageDefinition (buildContext bd cd ad env.args.configDir d s) = none ∧
      env.eibRun (buildContext bd cd ad env.args.configDir d s) root = .panics r ∧
      run env =
        ⟨t0 ++ eventsToConfigCheck root bd
            ++ [.stage .loadDefinition, .stage .createCombustionDirs,
                .setupCombustionCall bd, .stage .loadArtifactCatalog,
                .stage .assembleContext, .stage .validate, .deferInstalled,
                .stage .execute,
                .eibRunCall (buildContext bd cd ad env.args.configDir d s) root,
                .deferRan (some r),
                .audit ("Build failed unexpectedly. " ++ checkBuildLogMessage),
                .fatalLog ("Unexpected error occurred: " ++ r)],
         .exited 1⟩) := by
  have hroot :
      (∃ e, env.args.rootBuildDir = "" ∧
        env.mkdirAll (filepathJoin env.args.configDir defaultBuildDir) = some e ∧
        run env =
          ⟨[.stage .resolveRootDir,
            .mkdirAllCall (filepathJoin env.args.configDir defaultBuildDir),
            .audit ("The root build directory could not be set up under the configuration directory '"
                      ++ env.args.configDir ++ "'.")],
           .returnedErr e⟩) ∨
      (∃ t0 root, RootResolved env t0 root ∧ run env = runAfterRoot env t0 root) := by
    by_cases h1 : env.args.rootBuildDir = ""
    · cases h2 : env.mkdirAll (filepathJoin env.args.configDir defaultBuildDir) with
      | some e => exact Or.inl ⟨e, h1, rfl, by simp [run, h1, h2]⟩
      | none =>
          exact Or.inr ⟨[.stage .resolveRootDir,
              .mkdirAllCall (filepathJoin env.args.configDir defaultBuildDir)],
            filepathJoin env.args.configDir defaultBuildDir,
            Or.inl ⟨h1, rfl, h2, rfl⟩, by simp [run, h1, h2]⟩
    · exact Or.inr ⟨[.stage .resolveRootDir], env.args.rootBuildDir,
        Or.inr ⟨h1, rfl, rfl⟩, by simp [run, h1]⟩
  rcases hroot with ⟨e, h1, h2, heq⟩ | ⟨t0, root, hres, heq⟩
  · exact Or.inl ⟨e, h1, h2, heq⟩
  refine Or.inr ?_
  cases hsb : env.setupBuildDirectory root with
  | error e =>
      exact Or.inl ⟨t0, root, e, hres, hsb, by rw [heq]; simp [runAfterRoot, hsb]⟩
  | ok bd =>
  refine Or.inr ?_
  cases hchk : imageConfigDirExists env.stat env.args.configDir with
  | some cmdErr =>
      exact Or.inl ⟨t0, root, bd, cmdErr, hres, hsb, rfl,
        by rw [heq]; simp [runAfterRoot, hsb, hchk, eventsToConfigCheck]⟩
  | none =>
  refine Or.inr ?_
  cases hpd : parseImageDefinition env.readFile env.parseDefinition
      env.supportedSchemaVersions env.args.configDir env.args.definitionFile with
  | error cmdErr =>
      exact Or.inl ⟨t0, root, bd, cmdErr, hres, hsb, rfl, rfl,
        by rw [heq]; simp [runAfterRoot, hsb, hchk, hpd, eventsToConfigCheck]⟩
  | ok d =>
  refine Or.inr ?_
  cases hcomb : env.setupCombustionDirectory bd with
  | error e =>
      exact Or.inl ⟨t0, root, bd, d, e, hres, hsb, rfl, rfl, hcomb,
        by rw [heq]; simp [runAfterRoot, hsb, hchk, hpd, hcomb, eventsToConfigCheck]⟩
  | ok pair =>
  obtain ⟨cd, ad⟩ := pair
  refine Or.inr ?_
  cases hart : parseArtifactSources env.readFile env.yamlUnmarshal with
  | error e =>
      exact Or.inl ⟨t0, root, bd, d, cd, ad, e, hres, hsb, rfl, rfl, hcomb, rfl,
        by rw [heq]; simp [runAfterRoot, hsb, hchk, hpd, hcomb, hart, eventsToConfigCheck]⟩
  | ok s =>
  refine Or.inr ?_
  cases hval : env.validateImageDefinition (buildContext bd cd ad env.args.configDir d s) with
  | some cmdErr =>
      exact Or.inl ⟨t0, root, bd, d, cd, ad, s, cmdErr, hres, hsb, rfl, rfl, hcomb, rfl, hval,
        by rw [heq]; simp [runAfterRoot, hsb, hchk, hpd, hcomb, hart, hval, eventsToConfigCheck]⟩
  | none =>
  refine Or.inr ?_
  cases heib : env.eibRun (buildContext bd cd ad env.args.configDir d s) root with
  | ok =>
      exact Or.inl ⟨t0, root, bd, d, cd, ad, s, hres, hsb, rfl, rfl, hcomb, rfl, hval, heib,
        by rw [heq]; simp [runAfterRoot, hsb, hchk, hpd, hcomb, hart, hval, heib, eventsToConfigCheck]⟩
  | err e =>
      exact Or.inr (Or.inl ⟨t0, root, bd, d, cd, ad, s, e, hres, hsb, rfl, rfl, hcomb, rfl, hval, heib,
        by rw [heq]; simp [runAfterRoot, hsb, hchk, hpd, hcomb, hart, hval, heib, eventsToConfigCheck]⟩)
  | panics r =>
      exact Or.inr (Or.inr ⟨t0, root, bd, d, cd, ad, s, r, hres, hsb, rfl, rfl, hcomb, rfl, hval, heib,
        by rw [heq]; simp [runAfterRoot, hsb, hchk, hpd, hcomb, hart, hval, heib, eventsToConfigCheck]⟩)

/-- C1: the stage markers of every run form a prefix of the fixed stage
order (so the stages execute in that order, and a failure before
`Execute` halts the pipeline with no later stage running), and the build
executor `eib.Run` is invoked if and only if all nine prior stages ran and
succeeded, i.e. the run reached the `Execute` stage. -/
theorem run_stage_order_and_gating (env : Env) :
    (stagesOf (run env).trace).isPrefixOf allStages = true ∧
    (eibRunInvoked (run env).trace = true ↔ stagesOf (run env).trace = allStages) := by
  rcases run_cases env with
    ⟨e, h1, h2, heq⟩ |
    ⟨t0, root, e, hres, hsb, heq⟩ |
    ⟨t0, root, bd, cmdErr, hres, hsb, hchk, heq⟩ |
    ⟨t0, root, bd, cmdErr, hres, hsb, hchk, hpd, heq⟩ |
    ⟨t0, root, bd, d, e, hres, hsb, hchk, hpd, hcomb, heq⟩ |
    ⟨t0, root, bd, d, cd, ad, e, hres, hsb, hchk, hpd, hcomb, hart, heq⟩ |
    ⟨t0, root, bd, d, cd, ad, s, cmdErr, hres, hsb, hchk, hpd, hcomb, hart, hval, heq⟩ |
    ⟨t0, root, bd, d, cd, ad, s, hres, hsb, hchk, hpd, hcomb, hart, hval, heib, heq⟩ |
    ⟨t0, root, bd, d, cd, ad, s, e, hres, hsb, hchk, hpd, hcomb, hart, hval, heib, heq⟩ |
    ⟨t0, root, bd, d, cd, ad, s, r, hres, hsb, hchk, hpd, hcomb, hart, hval, heib, heq⟩
  · rw [heq]
    simp [stagesOf, stageOfEvent, eibRunInvoked, isEibRunCall, allStages]
  all_goals
    rcases hres with ⟨hrb, hr, hmk, ht0⟩ | ⟨hrb, hr, ht0⟩ <;> subst ht0 <;> rw [heq] <;>
      simp [stagesOf, stageOfEvent, eibRunInvoked, isEibRunCall, eventsToConfigCheck, allStages]

/-- Witness for `run_stage_order_and_gating`: in `envOk` the executor is
invoked, so all ten stage markers appear in order. -/
theorem run_stage_order_and_gating_witness :
    stagesOf (run envOk).trace = allStages :=
  (run_stage_order_and_gating envOk).2.mp (by decide)

/-- C6: when a root build directory is configured (non-empty), the
controller performs no `os.MkdirAll` call and hands exactly that value to
`eib.SetupBuildDirectory`; when the configured value is empty, the root is
derived by joining the configuration directory with the fixed name
`_build`, `os.MkdirAll` is called on it (creating missing ancestors, per
`MkdirAll` semantics), and on success that derived path is handed to
`eib.SetupBuildDirectory`. -/
theorem run_root_dir_resolution (env : Env) :
    (env.args.rootBuildDir ≠ "" →
      mkdirCalls (run env).trace = [] ∧
      Event.setupBuildDirectoryCall env.args.rootBuildDir ∈ (run env).trace) ∧
    (env.args.rootBuildDir = "" →
      mkdirCalls (run env).trace = [filepathJoin env.args.configDir defaultBuildDir] ∧
      (env.mkdirAll (filepathJoin env.args.configDir defaultBuildDir) = none →
        Event.setupBuildDirectoryCall (filepathJoin env.args.configDir defaultBuildDir)
          ∈ (run env).trace)) := by
  rcases run_cases env with
    ⟨e, h1, h2, heq⟩ |
    ⟨t0, root, e, hres, hsb, heq⟩ |
    ⟨t0, root, bd, cmdErr, hres, hsb, hchk, heq⟩ |
    ⟨t0, root, bd, cmdErr, hres, hsb, hchk, hpd, heq⟩ |
    ⟨t0, root, bd, d, e, hres, hsb, hchk, hpd, hcomb, heq⟩ |
    ⟨t0, root, bd, d, cd, ad, e, hres, hsb, hchk, hpd, hcomb, hart, heq⟩ |
    ⟨t0, root, bd, d, cd, ad, s, cmdErr, hres, hsb, hchk, hpd, hcomb, hart, hval, heq⟩ |
    ⟨t0, root, bd, d, cd, ad, s, hres, hsb, hchk, hpd, hcomb, hart, hval, heib, heq⟩ |
    ⟨t0, root, bd, d, cd, ad, s, e, hres, hsb, hchk, hpd, hcomb, hart, hval, heib, heq⟩ |
    ⟨t0, root, bd, d, cd, ad, s, r, hres, hsb, hchk, hpd, hcomb, hart, hval, heib, heq⟩
  · rw [heq]
    simp_all [mkdirCalls, mkdirPathOfEvent]
  all_goals
    rcases hres with ⟨hrb, hr, hmk, ht0⟩ | ⟨hrb, hr, ht0⟩ <;> subst ht0 <;> subst hr <;>
      rw [heq] <;>
      simp_all [mkdirCalls, mkdirPathOfEvent, eventsToConfigCheck]

/-- Witness for `run_root_dir_resolution`: in `envOk` the root build
directory `"root"` is configured, so no `MkdirAll` call happens and
`eib.SetupBuildDirectory` receives `"root"` verbatim. -/
theorem run_root_dir_resolution_witness :
    mkdirCalls (run envOk).trace = [] ∧
    Event.setupBuildDirectoryCall "root" ∈ (run envOk).trace :=
  (run_root_dir_resolution envOk).1 (by decide)

/-- The last two elements of a list, when it has at least two. -/
def lastTwo {α : Type} : List α → Option (α × α)
  | [] => none
  | [_] => none
  | [a, b] => some (a, b)
  | _ :: b :: c :: rest => lastTwo (b :: c :: rest)

/-- The last element of a list. -/
def lastEvent {α : Type} : List α → Option α
  | [] => none
  | [a] => some a
  | _ :: b :: rest => lastEvent (b :: rest)

/-- Whether a trace ends with an audit message directly followed by a
`zap.S().Fatalf` operator-log entry — the fatal reporting path. -/
def endsWithAuditThenFatal (tr : List Event) : Bool :=
  match lastTwo tr with
  | some (.audit _, .fatalLog _) => true
  | _ => false

/-- Whether the final event of a trace is an audit message. -/
def lastIsAudit (tr : List Event) : Bool :=
  match lastEvent tr with
  | some (.audit _) => true
  | _ => false

/-- C3 as amended: a combustion-directory creation failure (run halted
with exactly the first six stage markers) or an artifact-catalog load
failure (exactly the first seven) ends the run with an audit message
directly followed by a fatal operator-log entry and terminates the
process with exit status 1; by contrast, a root-build-directory creation
failure (exactly one stage marker) or a build-directory creation failure
(exactly two) ends with an audit message but returns the error to the
caller instead of taking the fatal path. -/
theorem run_environment_failure_reporting (env : Env) :
    ((stagesOf (run env).trace = allStages.take 6 ∨
      stagesOf (run env).trace = allStages.take 7) →
      endsWithAuditThenFatal (run env).trace = true ∧
      (run env).outcome = .exited 1) ∧
    ((stagesOf (run env).trace = allStages.take 1 ∨
      stagesOf (run env).trace = allStages.take 2) →
      lastIsAudit (run env).trace = true ∧
      ∃ e, (run env).outcome = .returnedErr e) := by
  rcases run_cases env with
    ⟨e, h1, h2, heq⟩ |
    ⟨t0, root, e, hres, hsb, heq⟩ |
    ⟨t0, root, bd, cmdErr, hres, hsb, hchk, heq⟩ |
    ⟨t0, root, bd, cmdErr, hres, hsb, hchk, hpd, heq⟩ |
    ⟨t0, root, bd, d, e, hres, hsb, hchk, hpd, hcomb, heq⟩ |
    ⟨t0, root, bd, d, cd, ad, e, hres, hsb, hchk, hpd, hcomb, hart, heq⟩ |
    ⟨t0, root, bd, d, cd, ad, s, cmdErr, hres, hsb, hchk, hpd, hcomb, hart, hval, heq⟩ |
    ⟨t0, root, bd, d, cd, ad, s, hres, hsb, hchk, hpd, hcomb, hart, hval, heib, heq⟩ |
    ⟨t0, root, bd, d, cd, ad, s, e, hres, hsb, hchk, hpd, hcomb, hart, hval, heib, heq⟩ |
    ⟨t0, root, bd, d, cd, ad, s, r, hres, hsb, hchk, hpd, hcomb, hart, hval, heib, heq⟩
  · rw [heq]
    simp [stagesOf, stageOfEvent, allStages, lastTwo, lastEvent,
      endsWithAuditThenFatal, lastIsAudit]
  all_goals
    rcases hres with ⟨hrb, hr, hmk, ht0⟩ | ⟨hrb, hr, ht0⟩ <;> subst ht0 <;> rw [heq] <;>
      simp [stagesOf, stageOfEvent, eventsToConfigCheck, allStages, lastTwo, lastEvent,
        endsWithAuditThenFatal, lastIsAudit]

/-- Counterexample to C3 as stated: in `envMkdirFail` the root build
directory cannot be created — an environment failure — yet the controller
does not terminate through the fatal path: it emits no fatal log entry and
returns the error to its caller normally. -/
theorem run_rootdir_failure_returns_normally :
    (run envMkdirFail).outcome = .returnedErr "disk full" ∧
    (run envMkdirFail).trace.any isFatalLogEvent = false := by decide

/-- Witness for `run_environment_failure_reporting`: in
`envCombustionFail` the combustion-directory creation fails, and the run
ends with audit-then-fatal reporting and exit status 1. -/
theorem run_environment_failure_reporting_witness :
    endsWithAuditThenFatal (run envCombustionFail).trace = true ∧
    (run envCombustionFail).outcome = .exited 1 :=
  (run_environment_failure_reporting envCombustionFail).1 (by decide)

/-- C8 as amended: every failing run either exits the process with status
1 while some reporting event carries the pointer to the build log file, or
is one of the two failures that precede logger configuration (root or
build directory creation, identified by their stage prefixes), which
return the error to the caller and whose audit messages carry no pointer
to a log file. -/
theorem run_failure_exit_and_pointer (env : Env) :
    ((run env).outcome ≠ .returnedNil →
      (∃ e, (run env).outcome = .returnedErr e) ∨
      ((run env).outcome = .exited 1 ∧
        (run env).trace.any eventCarriesPointer = true)) ∧
    ((∃ e, (run env).outcome = .returnedErr e) →
      stagesOf (run env).trace = allStages.take 1 ∨
      stagesOf (run env).trace = allStages.take 2) := by
  rcases run_cases env with
    ⟨e, h1, h2, heq⟩ |
    ⟨t0, root, e, hres, hsb, heq⟩ |
    ⟨t0, root, bd, cmdErr, hres, hsb, hchk, heq⟩ |
    ⟨t0, root, bd, cmdErr, hres, hsb, hchk, hpd, heq⟩ |
    ⟨t0, root, bd, d, e, hres, hsb, hchk, hpd, hcomb, heq⟩ |
    ⟨t0, root, bd, d, cd, ad, e, hres, hsb, hchk, hpd, hcomb, hart, heq⟩ |
    ⟨t0, root, bd, d, cd, ad, s, cmdErr, hres, hsb, hchk, hpd, hcomb, hart, hval, heq⟩ |
    ⟨t0, root, bd, d, cd, ad, s, hres, hsb, hchk, hpd, hcomb, hart, hval, heib, heq⟩ |
    ⟨t0, root, bd, d, cd, ad, s, e, hres, hsb, hchk, hpd, hcomb, hart, hval, heib, heq⟩ |
    ⟨t0, root, bd, d, cd, ad, s, r, hres, hsb, hchk, hpd, hcomb, hart, hval, heib, heq⟩
  · rw [heq]
    simp [stagesOf, stageOfEvent, allStages, eventCarriesPointer]
  all_goals
    rcases hres with ⟨hrb, hr, hmk, ht0⟩ | ⟨hrb, hr, ht0⟩ <;> subst ht0 <;> rw [heq] <;>
      (simp [stagesOf, stageOfEvent, eventsToConfigCheck, allStages,
        eventCarriesPointer] <;> decide)

/-- Counterexample to C8 as stated: in `envBuildDirFail` the
build-directory stage fails — a gated-stage failure — yet the controller
does not exit; it returns the error, and no reporting event of the run
carries the pointer to the build log file. -/
theorem run_builddir_failure_no_pointer :
    (run envBuildDirFail).outcome = .returnedErr "io" ∧
    (run envBuildDirFail).outcome ≠ .returnedNil ∧
    (run envBuildDirFail).trace.any eventCarriesPointer = false := by decide

/-- Witness for `run_failure_exit_and_pointer`: in `envNoConfigDir` the
configuration-directory check fails; the run exits with status 1 and a
reporting event carries the log-file pointer. -/
theorem run_failure_exit_and_pointer_witness :
    (∃ e, (run envNoConfigDir).outcome = .returnedErr e) ∨
    ((run envNoConfigDir).outcome = .exited 1 ∧
      (run envNoConfigDir).trace.any eventCarriesPointer = true) :=
  (run_failure_exit_and_pointer envNoConfigDir).1 (by decide)

/-- Recognises a `ConfigureGlobalLogger` call event. -/
def isLoggerConfigEvent : Event → Bool
  | .configureGlobalLogger _ => true
  | _ => false

/-- C7: the global logger is configured at most once per run, exactly once
when (and only when) the build directory was successfully created, with
the log file placed inside that fresh build directory; and every
configuration event happens immediately after the build-directory
creation call (the two events preceding it are the successful
`SetupBuildDirectory` call and the `ConfigureLogging` stage marker) and
strictly before any subsequent stage (the trace before it carries only the
first three stage markers). -/
theorem run_logger_configuration (env : Env) :
    (loggerConfigCalls (run env).trace).length ≤ 1 ∧
    ((∃ root bd, Event.setupBuildDirectoryCall root ∈ (run env).trace ∧
        env.setupBuildDirectory root = .ok bd) ↔
      (loggerConfigCalls (run env).trace).length = 1) ∧
    (∀ p, Event.configureGlobalLogger p ∈ (run env).trace →
      (∃ root bd, env.setupBuildDirectory root = .ok bd ∧
        p = filepathJoin bd buildLogFilename ∧
        lastTwo ((run env).trace.takeWhile (fun e => !isLoggerConfigEvent e)) =
          some (.setupBuildDirectoryCall root, .stage .configureLogging)) ∧
      stagesOf ((run env).trace.takeWhile (fun e => !isLoggerConfigEvent e)) =
        [.resolveRootDir, .createBuildDir, .configureLogging]) := by
  refine ⟨?_, ?_, ?_⟩
  · rcases run_cases env with
      ⟨e, h1, h2, heq⟩ |
      ⟨t0, root, e, hres, hsb, heq⟩ |
      ⟨t0, root, bd, cmdErr, hres, hsb, hchk, heq⟩ |
      ⟨t0, root, bd, cmdErr, hres, hsb, hchk, hpd, heq⟩ |
      ⟨t0, root, bd, d, e, hres, hsb, hchk, hpd, hcomb, heq⟩ |
      ⟨t0, root, bd, d, cd, ad, e, hres, hsb, hchk, hpd, hcomb, hart, heq⟩ |
      ⟨t0, root, bd, d, cd, ad, s, cmdErr, hres, hsb, hchk, hpd, hcomb, hart, hval, heq⟩ |
      ⟨t0, root, bd, d, cd, ad, s, hres, hsb, hchk, hpd, hcomb, hart, hval, heib, heq⟩ |
      ⟨t0, root, bd, d, cd, ad, s, e, hres, hsb, hchk, hpd, hcomb, hart, hval, heib, heq⟩ |
      ⟨t0, root, bd, d, cd, ad, s, r, hres, hsb, hchk, hpd, hcomb, hart, hval, heib, heq⟩
    · rw [heq]
      simp [loggerConfigCalls, loggerPathOfEvent]
    all_goals
      rcases hres with ⟨h1, h2, h3, ht0⟩ | ⟨h1, h2, ht0⟩ <;> subst ht0 <;> rw [heq] <;>
        simp [loggerConfigCalls, loggerPathOfEvent, eventsToConfigCheck]
  · rcases run_cases env with
      ⟨e, h1, h2, heq⟩ |
      ⟨t0, root, e, hres, hsb, heq⟩ |
      ⟨t0, root, bd, cmdErr, hres, hsb, hchk, heq⟩ |
      ⟨t0, root, bd, cmdErr, hres, hsb, hchk, hpd, heq⟩ |
      ⟨t0, root, bd, d, e, hres, hsb, hchk, hpd, hcomb, heq⟩ |
      ⟨t0, root, bd, d, cd, ad, e, hres, hsb, hchk, hpd, hcomb, hart, heq⟩ |
      ⟨t0, root, bd, d, cd, ad, s, cmdErr, hres, hsb, hchk, hpd, hcomb, hart, hval, heq⟩ |
      ⟨t0, root, bd, d, cd, ad, s, hres, hsb, hchk, hpd, hcomb, hart, hval, heib, heq⟩ |
      ⟨t0, root, bd, d, cd, ad, s, e, hres, hsb, hchk, hpd, hcomb, hart, hval, heib, heq⟩ |
      ⟨t0, root, bd, d, cd, ad, s, r, hres, hsb, hchk, hpd, hcomb, hart, hval, heib, heq⟩
    · rw [heq]
      simp [loggerConfigCalls, loggerPathOfEvent]
    all_goals
      rcases hres with ⟨h1, h2, h3, ht0⟩ | ⟨h1, h2, ht0⟩ <;> subst ht0 <;> rw [heq] <;>
        simp [loggerConfigCalls, loggerPathOfEvent, eventsToConfigCheck, hsb]
  · rcases run_cases env with
      ⟨e, h1, h2, heq⟩ |
      ⟨t0, root, e, hres, hsb, heq⟩ |
      ⟨t0, root, bd, cmdErr, hres, hsb, hchk, heq⟩ |
      ⟨t0, root, bd, cmdErr, hres, hsb, hchk, hpd, heq⟩ |
      ⟨t0, root, bd, d, e, hres, hsb, hchk, hpd, hcomb, heq⟩ |
      ⟨t0, root, bd, d, cd, ad, e, hres, hsb, hchk, hpd, hcomb, hart, heq⟩ |
      ⟨t0, root, bd, d, cd, ad, s, cmdErr, hres, hsb, hchk, hpd, hcomb, hart, hval, heq⟩ |
      ⟨t0, root, bd, d, cd, ad, s, hres, hsb, hchk, hpd, hcomb, hart, hval, heib, heq⟩ |
      ⟨t0, root, bd, d, cd, ad, s, e, hres, hsb, hchk, hpd, hcomb, hart, hval, heib, heq⟩ |
      ⟨t0, root, bd, d, cd, ad, s, r, hres, hsb, hchk, hpd, hcomb, hart, hval, heib, heq⟩
    · rw [heq]
      intro p hp
      simp at hp
    · rcases hres with ⟨h1, h2, h3, ht0⟩ | ⟨h1, h2, ht0⟩ <;> subst ht0 <;> rw [heq] <;>
        (intro p hp; simp at hp)
    all_goals
      rcases hres with ⟨h1, h2, h3, ht0⟩ | ⟨h1, h2, ht0⟩ <;> subst ht0 <;>
        (intro p hp
         rw [heq] at hp
         simp [eventsToConfigCheck] at hp
         subst hp
         exact ⟨⟨root, bd, hsb, rfl,
             by rw [heq]; simp [lastTwo, isLoggerConfigEvent, eventsToConfigCheck]⟩,
           by rw [heq]; simp [isLoggerConfigEvent, stagesOf, stageOfEvent, eventsToConfigCheck]⟩)

/-- Witness for `run_logger_configuration`: in `envEibErr` the build
directory `"root/b1"` is created, so the logger is configured exactly
once. -/
theorem run_logger_configuration_witness :
    (loggerConfigCalls (run envEibErr).trace).length = 1 :=
  (run_logger_configuration envEibErr).2.1.mp ⟨"root", "root/b1", by decide, by decide⟩

/-- C2 as amended: the recovery handler is installed immediately before
the executor is invoked (the two events before the `eib.Run` call are the
handler installation and the `Execute` stage marker); a panic raised by
the executor is recovered by the handler, converted into an audit message
plus a fatal operator-log report, and the process terminates with exit
status 1 rather than crashing; and the handler also runs, as a no-op, when
the executor returns successfully.  On the error-return path, however, the
fatal logging exits the process before deferred functions run, so the
handler does not execute there. -/
theorem run_panic_interception (env : Env) :
    (∀ c rt rr, Event.eibRunCall c rt ∈ (run env).trace →
      env.eibRun c rt = .panics rr →
      Event.deferRan (some rr) ∈ (run env).trace ∧
      Event.audit ("Build failed unexpectedly. " ++ checkBuildLogMessage) ∈ (run env).trace ∧
      Event.fatalLog ("Unexpected error occurred: " ++ rr) ∈ (run env).trace ∧
      (run env).outcome = .exited 1) ∧
    (∀ c rt, Event.eibRunCall c rt ∈ (run env).trace →
      lastTwo ((run env).trace.takeWhile (fun e => !isEibRunCall e)) =
        some (.deferInstalled, .stage .execute) ∧
      (env.eibRun c rt = .ok → Event.deferRan none ∈ (run env).trace)) := by
  refine ⟨?_, ?_⟩
  · rcases run_cases env with
      ⟨e, h1, h2, heq⟩ |
      ⟨t0, root, e, hres, hsb, heq⟩ |
      ⟨t0, root, bd, cmdErr, hres, hsb, hchk, heq⟩ |
      ⟨t0, root, bd, cmdErr, hres, hsb, hchk, hpd, heq⟩ |
      ⟨t0, root, bd, d, e, hres, hsb, hchk, hpd, hcomb, heq⟩ |
      ⟨t0, root, bd, d, cd, ad, e, hres, hsb, hchk, hpd, hcomb, hart, heq⟩ |
      ⟨t0, root, bd, d, cd, ad, s, cmdErr, hres, hsb, hchk, hpd, hcomb, hart, hval, heq⟩ |
      ⟨t0, root, bd, d, cd, ad, s, hres, hsb, hchk, hpd, hcomb, hart, hval, heib, heq⟩ |
      ⟨t0, root, bd, d, cd, ad, s, e, hres, hsb, hchk, hpd, hcomb, hart, hval, heib, heq⟩ |
      ⟨t0, root, bd, d, cd, ad, s, r, hres, hsb, hchk, hpd, hcomb, hart, hval, heib, heq⟩
    · rw [heq]
      intro c rt rr hmem hpan
      simp at hmem
    · rcases hres with ⟨h1, h2, h3, ht0⟩ | ⟨h1, h2, ht0⟩ <;> subst ht0 <;>
        (intro c rt rr hmem hpan; rw [heq] at hmem; simp [eventsToConfigCheck] at hmem)
    · rcases hres with ⟨h1, h2, h3, ht0⟩ | ⟨h1, h2, ht0⟩ <;> subst ht0 <;>
        (intro c rt rr hmem hpan; rw [heq] at hmem; simp [eventsToConfigCheck] at hmem)
    · rcases hres with ⟨h1, h2, h3, ht0⟩ | ⟨h1, h2, ht0⟩ <;> subst ht0 <;>
        (intro c rt rr hmem hpan; rw [heq] at hmem; simp [eventsToConfigCheck] at hmem)
    · rcases hres with ⟨h1, h2, h3, ht0⟩ | ⟨h1, h2, ht0⟩ <;> subst ht0 <;>
        (intro c rt rr hmem hpan; rw [heq] at hmem; simp [eventsToConfigCheck] at hmem)
    · rcases hres with ⟨h1, h2, h3, ht0⟩ | ⟨h1, h2, ht0⟩ <;> subst ht0 <;>
        (intro c rt rr hmem hpan; rw [heq] at hmem; simp [eventsToConfigCheck] at hmem)
    · rcases hres with ⟨h1, h2, h3, ht0⟩ | ⟨h1, h2, ht0⟩ <;> subst ht0 <;>
        (intro c rt rr hmem hpan; rw [heq] at hmem; simp [eventsToConfigCheck] at hmem)
    · rcases hres with ⟨h1, h2, h3, ht0⟩ | ⟨h1, h2, ht0⟩ <;> subst ht0 <;>
        (intro c rt rr hmem hpan
         rw [heq] at hmem
         simp [eventsToConfigCheck] at hmem
         obtain ⟨hc, hrt⟩ := hmem
         subst hc
         subst hrt
         simp [heib] at hpan)
    · rcases hres with ⟨h1, h2, h3, ht0⟩ | ⟨h1, h2, ht0⟩ <;> subst ht0 <;>
        (intro c rt rr hmem hpan
         rw [heq] at hmem
         simp [eventsToConfigCheck] at hmem
         obtain ⟨hc, hrt⟩ := hmem
         subst hc
         subst hrt
         simp [heib] at hpan)
    · rcases hres with ⟨h1, h2, h3, ht0⟩ | ⟨h1, h2, ht0⟩ <;> subst ht0 <;>
        (intro c rt rr hmem hpan
         rw [heq] at hmem ⊢
         simp [eventsToConfigCheck] at hmem
         obtain ⟨hc, hrt⟩ := hmem
         subst hc
         subst hrt
         simp [heib] at hpan
         subst hpan
         simp [eventsToConfigCheck])
  · rcases run_cases env with
      ⟨e, h1, h2, heq⟩ |
      ⟨t0, root, e, hres, hsb, heq⟩ |
      ⟨t0, root, bd, cmdErr, hres, hsb, hchk, heq⟩ |
      ⟨t0, root, bd, cmdErr, hres, hsb, hchk, hpd, heq⟩ |
      ⟨t0, root, bd, d, e, hres, hsb, hchk, hpd, hcomb, heq⟩ |
      ⟨t0, root, bd, d, cd, ad, e, hres, hsb, hchk, hpd, hcomb, hart, heq⟩ |
      ⟨t0, root, bd, d, cd, ad, s, cmdErr, hres, hsb, hchk, hpd, hcomb, hart, hval, heq⟩ |
      ⟨t0, root, bd, d, cd, ad, s, hres, hsb, hchk, hpd, hcomb, hart, hval, heib, heq⟩ |
      ⟨t0, root, bd, d, cd, ad, s, e, hres, hsb, hchk, hpd, hcomb, hart, hval, heib, heq⟩ |
      ⟨t0, root, bd, d, cd, ad, s, r, hres, hsb, hchk, hpd, hcomb, hart, hval, heib, heq⟩
    · rw [heq]
      intro c rt hmem
      simp at hmem
    · rcases hres with ⟨h1, h2, h3, ht0⟩ | ⟨h1, h2, ht0⟩ <;> subst ht0 <;>
        (intro c rt hmem; rw [heq] at hmem; simp [eventsToConfigCheck] at hmem)
    · rcases hres with ⟨h1, h2, h3, ht0⟩ | ⟨h1, h2, ht0⟩ <;> subst ht0 <;>
        (intro c rt hmem; rw [heq] at hmem; simp [eventsToConfigCheck] at hmem)
    · rcases hres with ⟨h1, h2, h3, ht0⟩ | ⟨h1, h2, ht0⟩ <;> subst ht0 <;>
        (intro c rt hmem; rw [heq] at hmem; simp [eventsToConfigCheck] at hmem)
    · rcases hres with ⟨h1, h2, h3, ht0⟩ | ⟨h1, h2, ht0⟩ <;> subst ht0 <;>
        (intro c rt hmem; rw [heq] at hmem; simp [eventsToConfigCheck] at hmem)
    · rcases hres with ⟨h1, h2, h3, ht0⟩ | ⟨h1, h2, ht0⟩ <;> subst ht0 <;>
        (intro c rt hmem; rw [heq] at hmem; simp [eventsToConfigCheck] at hmem)
    · rcases hres with ⟨h1, h2, h3, ht0⟩ | ⟨h1, h2, ht0⟩ <;> subst ht0 <;>
        (intro c rt hmem; rw [heq] at hmem; simp [eventsToConfigCheck] at hmem)
    · rcases hres with ⟨h1, h2, h3, ht0⟩ | ⟨h1, h2, ht0⟩ <;> subst ht0 <;>
        (intro c rt hmem
         rw [heq] at hmem ⊢
         simp [eventsToConfigCheck] at hmem
         obtain ⟨hc, hrt⟩ := hmem
         subst hc
         subst hrt
         exact ⟨by simp [lastTwo, isEibRunCall, eventsToConfigCheck],
           fun _ => by simp⟩)
    · rcases hres with ⟨h1, h2, h3, ht0⟩ | ⟨h1, h2, ht0⟩ <;> subst ht0 <;>
        (intro c rt hmem
         rw [heq] at hmem ⊢
         simp [eventsToConfigCheck] at hmem
         obtain ⟨hc, hrt⟩ := hmem
         subst hc
         subst hrt
         exact ⟨by simp [lastTwo, isEibRunCall, eventsToConfigCheck],
           fun hok => by simp [heib] at hok⟩)
    · rcases hres with ⟨h1, h2, h3, ht0⟩ | ⟨h1, h2, ht0⟩ <;> subst ht0 <;>
        (intro c rt hmem
         rw [heq] at hmem ⊢
         simp [eventsToConfigCheck] at hmem
         obtain ⟨hc, hrt⟩ := hmem
         subst hc
         subst hrt
         exact ⟨by simp [lastTwo, isEibRunCall, eventsToConfigCheck],
           fun hok => by simp [heib] at hok⟩)

/-- Counterexample to C2 as stated: in `envEibErr` the executor is
invoked and fails with an error return; `zap.S().Fatalf` exits the
process before deferred functions run, so the interception handler does
not execute on this path through the executor. -/
theorem run_error_path_skips_handler :
    eibRunInvoked (run envEibErr).trace = true ∧
    (run envEibErr).trace.any isDeferRanEvent = false := by decide

/-- Witness for `run_panic_interception`: in `envEibPanic` the executor
panics with `"nil deref"`; the handler recovers it and the run ends in
audit-plus-fatal reporting with exit status 1. -/
theorem run_panic_interception_witness :
    Event.deferRan (some "nil deref") ∈ (run envEibPanic).trace ∧
    Event.audit ("Build failed unexpectedly. " ++ checkBuildLogMessage) ∈ (run envEibPanic).trace ∧
    Event.fatalLog ("Unexpected error occurred: " ++ "nil deref") ∈ (run envEibPanic).trace ∧
    (run envEibPanic).outcome = .exited 1 :=
  (run_panic_interception envEibPanic).1
    (buildContext "root/b1" "root/b1/combustion" "root/b1/artefacts" "cfg" defnA sourcesA)
    "root" "nil deref" (by decide) (by decide)

/-- C9: `buildContext` is a pure total function (a Lean function on
immutable values, with no failure mode in its type) whose result's
configuration-directory, build-directory, combustion-directory and
artefacts-directory fields and whose definition and catalog references
equal exactly the supplied arguments. -/
theorem buildContext_assembles_exactly
    (buildDir combustionDir artefactsDir configDir : String)
    (d : ImageDefinition) (s : ArtifactSources) :
    (buildContext buildDir combustionDir artefactsDir configDir d s).imageConfigDir = configDir ∧
    (buildContext buildDir combustionDir artefactsDir configDir d s).buildDir = buildDir ∧
    (buildContext buildDir combustionDir artefactsDir configDir d s).combustionDir = combustionDir ∧
    (buildContext buildDir combustionDir artefactsDir configDir d s).artefactsDir = artefactsDir ∧
    (buildContext buildDir combustionDir artefactsDir configDir d s).imageDefinition = d ∧
    (buildContext buildDir combustionDir artefactsDir configDir d s).artifactSources = s :=
  ⟨rfl, rfl, rfl, rfl, rfl, rfl⟩

/-- C10: `imageConfigDirExists` returns no error exactly when `os.Stat`
succeeds; on `ErrNotExist` it returns an error with only a user-facing
message naming the directory (empty operator message), and on any other
stat failure it returns both a user-facing message naming the directory
and an operator message containing the underlying error text. -/
theorem imageConfigDirExists_classifies (stat : String → StatResult) (configDir : String) :
    (imageConfigDirExists stat configDir = none ↔ stat configDir = .ok) ∧
    (stat configDir = .notExist →
      imageConfigDirExists stat configDir =
        some { userMessage := "The specified image configuration directory '"
                  ++ configDir ++ "' could not be found.",
               logMessage := "" }) ∧
    (∀ e, stat configDir = .otherErr e →
      imageConfigDirExists stat configDir =
        some { userMessage := "Unable to check the filesystem for the image configuration directory '"
                  ++ configDir ++ "'.",
               logMessage := "Reading image config dir failed: " ++ e }) := by
  refine ⟨?_, ?_, ?_⟩
  · cases h : stat configDir <;> simp [imageConfigDirExists, h]
  · intro h
    simp [imageConfigDirExists, h]
  · intro e h
    simp [imageConfigDirExists, h]

/-- Witness for `imageConfigDirExists_classifies` at a concrete stat
oracle reporting a missing directory. -/
theorem imageConfigDirExists_classifies_witness :
    imageConfigDirExists (fun _ => StatResult.notExist) "cfg" =
      some { userMessage := "The specified image configuration directory 'cfg' could not be found.",
             logMessage := "" } := by
  have h := (imageConfigDirExists_classifies (fun _ => StatResult.notExist) "cfg").2.1 rfl
  simpa using h

/-- C4: when the definition file reads successfully but parsing fails with
the invalid-schema-version condition, `parseImageDefinition` returns an
error whose user-facing (and operator) message is the fixed text followed
by the supported schema versions joined with a comma and space, in
declared order; with supported versions `["1.0", "1.1"]` that suffix is
exactly `"1.0, 1.1"`. -/
theorem parseImageDefinition_invalid_schema (readFile : String → ReadResult)
    (parseDefinition : String → ParseResult) (supportedSchemaVersions : List String)
    (configDir definitionFile data : String)
    (hread : readFile (filepathJoin configDir definitionFile) = .ok data)
    (hparse : parseDefinition data = .invalidSchemaVersion) :
    parseImageDefinition readFile parseDefinition supportedSchemaVersions
        configDir definitionFile =
      .error { userMessage := invalidSchemaMessage supportedSchemaVersions,
               logMessage := invalidSchemaMessage supportedSchemaVersions } ∧
    invalidSchemaMessage ["1.0", "1.1"] =
      "Invalid schema version specified. This version of Edge Image Builder supports the following schema versions: 1.0, 1.1" ∧
    stringsJoin ["1.0", "1.1"] ", " = "1.0, 1.1" := by
  refine ⟨?_, by decide, by decide⟩
  simp [parseImageDefinition, hread, hparse]

/-- Witness for `parseImageDefinition_invalid_schema` at concrete oracles:
the read succeeds and the parser reports the invalid-schema sentinel. -/
theorem parseImageDefinition_invalid_schema_witness :
    parseImageDefinition (fun _ => ReadResult.ok "v99")
        (fun _ => ParseResult.invalidSchemaVersion) ["1.0", "1.1"] "cfg" "def.yaml" =
      .error { userMessage := invalidSchemaMessage ["1.0", "1.1"],
               logMessage := invalidSchemaMessage ["1.0", "1.1"] } ∧
    invalidSchemaMessage ["1.0", "1.1"] =
      "Invalid schema version specified. This version of Edge Image Builder supports the following schema versions: 1.0, 1.1" ∧
    stringsJoin ["1.0", "1.1"] ", " = "1.0, 1.1" :=
  parseImageDefinition_invalid_schema (fun _ => ReadResult.ok "v99")
    (fun _ => ParseResult.invalidSchemaVersion) ["1.0", "1.1"] "cfg" "def.yaml" "v99" rfl rfl

/-- C5: `parseImageDefinition` resolves the definition path by joining the
configuration directory and file name; if that file is absent it returns
an error whose user-facing message contains the resolved path and whose
operator message is empty, and if the read fails for any other reason it
returns both a user-facing message containing the resolved path and an
operator message containing the underlying error text. -/
theorem parseImageDefinition_read_failures (readFile : String → ReadResult)
    (parseDefinition : String → ParseResult) (supportedSchemaVersions : List String)
    (configDir definitionFile : String) :
    (readFile (filepathJoin configDir definitionFile) = .notExist →
      parseImageDefinition readFile parseDefinition supportedSchemaVersions
          configDir definitionFile =
        .error { userMessage := "The specified definition file '"
                    ++ filepathJoin configDir definitionFile ++ "' could not be found.",
                 logMessage := "" }) ∧
    (∀ e, readFile (filepathJoin configDir definitionFile) = .otherErr e →
      parseImageDefinition readFile parseDefinition supportedSchemaVersions
          configDir definitionFile =
        .error { userMessage := "The specified definition file '"
                    ++ filepathJoin configDir definitionFile ++ "' could not be read.",
                 logMessage := "Reading definition file failed: " ++ e }) := by
  refine ⟨?_, ?_⟩
  · intro h
    simp [parseImageDefinition, h]
  · intro e h
    simp [parseImageDefinition, h]

/-- Witness for `parseImageDefinition_read_failures` at a concrete read
oracle reporting a missing file. -/
theorem parseImageDefinition_read_failures_witness :
    parseImageDefinition (fun _ => ReadResult.notExist)
        (fun _ => ParseResult.ok defnA) ["1.0"] "cfg" "def.yaml" =
      .error { userMessage := "The specified definition file 'cfg/def.yaml' could not be found.",
               logMessage := "" } := by
  have h := (parseImageDefinition_read_failures (fun _ => ReadResult.notExist)
    (fun _ => ParseResult.ok defnA) ["1.0"] "cfg" "def.yaml").1 rfl
  simpa using h

end EIB
